import Mathlib

/-!
Verification development for the snake-fungal-disease repository.

The Python sources are embedded shallowly:
* `src/scripts/prepare_local_dataset.py` — dataset preparation (validation,
  shuffle/split, file naming);
* `src/common/models/gast.py` — the GAST generator/discriminator model
  builders, embedded as a symbolic tensor-expression graph recording the
  layers and the arguments they are constructed with;
* `src/src/deepdna/nn/models/custom_model.py` — `CustomModel.from_config`;
* `src/scripts/finetuning/setbert_finetune_sfd_binary_classification.py` —
  the `class_weights` computation of `data_generators`.
-/

namespace SFD

open scoped List

/-! ## Python primitives used by the scripts -/

/-- Python `int(q)` on a real value: truncation toward zero. -/
def pyInt (q : ℚ) : ℤ := if 0 ≤ q then ⌊q⌋ else ⌈q⌉

/-- Python `s.endswith(t)`. -/
def pyEndsWith (s t : String) : Bool := t.data.isSuffixOf s.data

/-- Python `s.rstrip(chars)`: remove the longest trailing run of characters
drawn from the set `chars` (not a suffix removal). -/
def pyRstrip (s : String) (chars : List Char) : String :=
  ⟨(s.data.reverse.dropWhile (fun c => c ∈ chars)).reverse⟩

theorem pyInt_nonneg_eq_floor (q : ℚ) (h : 0 ≤ q) : pyInt q = ⌊q⌋ := by
  simp [pyInt, h]

/-! ## Embedding of src/scripts/prepare_local_dataset.py -/

/-- One path listed in `config.data_files`, together with the filesystem fact
`file.exists()` that `main` queries for it.  `name` is `file.name`, the final
path component. -/
structure DataFile where
  name : String
  exists_on_disk : Bool
deriving DecidableEq, Repr

/-- File-name test at lines 177 of the script:
`file.name.endswith(".fasta") or file.name.endswith(".fasta.gz")`. -/
def isFastaName (name : String) : Bool :=
  pyEndsWith name ".fasta" || pyEndsWith name ".fasta.gz"

/-- File-name test at line 179 of the script:
`file.name.endswith(".fastq") or file.name.endswith(".fastq.gz")`. -/
def isFastqName (name : String) : Bool :=
  pyEndsWith name ".fastq" || pyEndsWith name ".fastq.gz"

/-- The configuration visible to `main` of `prepare_local_dataset.py`,
together with the filesystem facts it queries.  `output_parent_exists`
models `Path(config.output_path).parent.exists()`. -/
structure PrepConfig where
  output_path : String
  output_parent_exists : Bool
  num_splits : ℤ
  test_split : ℚ
  output_db : Bool
  output_fasta_fastq : Bool
  data_files : List DataFile
deriving DecidableEq, Repr

/-- The `for file in map(Path, config.data_files)` loop of `main`
(lines 173–183): the first missing file or unknown extension aborts with
exit code 1 (`Except.error`); otherwise the files are partitioned, in order,
into FASTA and FASTQ lists. -/
def classify_data_files : List DataFile → Except Unit (List DataFile × List DataFile)
  | [] => .ok ([], [])
  | f :: rest =>
    if f.exists_on_disk = false then .error ()
    else if isFastaName f.name then
      match classify_data_files rest with
      | .error e => .error e
      | .ok (fas, fqs) => .ok (f :: fas, fqs)
    else if isFastqName f.name then
      match classify_data_files rest with
      | .error e => .error e
      | .ok (fas, fqs) => .ok (fas, f :: fqs)
    else .error ()

/-- The directories `main` creates once validation has passed
(lines 186–194), in creation order. -/
def mkdir_effects (c : PrepConfig) : List String :=
  (List.range c.num_splits.toNat).flatMap (fun i =>
    if 0 < c.test_split then
      [c.output_path ++ "/" ++ toString i ++ "/test",
       c.output_path ++ "/" ++ toString i ++ "/train"]
    else [c.output_path])

/-- The validation-and-setup portion of `main` (lines 153–194): the result
is the returned exit code (`some 1` on validation failure, `none` when the
function falls through to processing) paired with the list of directories
created.  Every validation check precedes every `mkdir` in the source, so a
failing run creates nothing. -/
def mainRun (c : PrepConfig) : Option ℤ × List String :=
  if c.output_parent_exists = false then (some 1, [])
  else if 1 < c.num_splits ∧ c.test_split = 0 then (some 1, [])
  else if c.output_fasta_fastq = false ∧ c.output_db = false then (some 1, [])
  else
    match classify_data_files c.data_files with
    | .error _ => (some 1, [])
    | .ok _ => (none, mkdir_effects c)

/-- Abstract model of `np.random.Generator` as used by the script: a state
type `σ` and the effect of one `rng.shuffle(entries)` call, returning the
reordered list (the in-place mutation) and the advanced generator state. -/
structure RngModel (σ : Type) (α : Type) where
  shuffle : σ → List α → List α × σ

/-- The `for i in trange(config.num_splits)` loop shared by
`process_fasta_files` (lines 122–128) and `process_fastq_files`
(lines 143–149): each iteration shuffles the entry list in place and emits
the pair `(entries[:split_index], entries[split_index:])` handed to the
output writers.  Returns the per-split pairs in split order, the final
entry-list contents and the final RNG state. -/
def processSplits (rng : RngModel σ α) (split_index : ℕ) :
    ℕ → List α → σ → List (List α × List α) × List α × σ
  | 0, entries, s => ([], entries, s)
  | n + 1, entries, s =>
    let es := rng.shuffle s entries
    let rest := processSplits rng split_index n es.1 es.2
    ((es.1.take split_index, es.1.drop split_index) :: rest.1, rest.2.1, rest.2.2)

/-- One input file: its `file.name` and its parsed entry list. -/
structure FileData (α : Type) where
  name : String
  entries : List α

/-- The body of `process_fasta_files` for one FASTA file (lines 116–128):
optional sequence cleaning (`re.sub`, abstracted as `clean`), the
`split_index = int(len(entries) * config.test_split)` computation, the
`rstrip('.gz')` file name, and the split loop. -/
def process_one_fasta (clean_sequences : Bool) (test_split : ℚ)
    (num_splits : ℕ) (rng : RngModel σ α) (clean : α → α) (fd : FileData α)
    (s : σ) : String × List (List α × List α) × σ :=
  let entries := if clean_sequences then fd.entries.map clean else fd.entries
  let split_index := (pyInt ((entries.length : ℚ) * test_split)).toNat
  let filename := pyRstrip fd.name ['.', 'g', 'z']
  let r := processSplits rng split_index num_splits entries s
  (filename, r.1, r.2.2)

/-- Model of `process_fasta_files` (lines 108–129): fold the per-file processing over
the file list, threading the RNG state; collect each file's output name and
per-split `(test, train)` pairs. -/
def process_fasta_files (clean_sequences : Bool) (test_split : ℚ)
    (num_splits : ℕ) (rng : RngModel σ α) (clean : α → α) :
    List (FileData α) → σ → List (String × List (List α × List α)) × σ
  | [], s => ([], s)
  | fd :: rest, s =>
    let r := process_one_fasta clean_sequences test_split num_splits rng clean fd s
    let rs := process_fasta_files clean_sequences test_split num_splits rng clean rest r.2.2
    ((r.1, r.2.1) :: rs.1, rs.2)

/-- The body of `process_fastq_files` for one FASTQ file (lines 140–149):
identical to the FASTA case except that no cleaning step exists. -/
def process_one_fastq (test_split : ℚ) (num_splits : ℕ) (rng : RngModel σ α)
    (fd : FileData α) (s : σ) : String × List (List α × List α) × σ :=
  let entries := fd.entries
  let split_index := (pyInt ((entries.length : ℚ) * test_split)).toNat
  let filename := pyRstrip fd.name ['.', 'g', 'z']
  let r := processSplits rng split_index num_splits entries s
  (filename, r.1, r.2.2)

/-- The data-file loop aborts exactly when some listed file is missing or
has an unrecognised extension. -/
theorem classify_data_files_error_iff (fs : List DataFile) :
    classify_data_files fs = .error () ↔
      ∃ f ∈ fs, f.exists_on_disk = false ∨
        (isFastaName f.name = false ∧ isFastqName f.name = false) := by
  induction fs with
  | nil => simp [classify_data_files]
  | cons f rest ih =>
    by_cases h1 : f.exists_on_disk = false
    · simp [classify_data_files, h1]
    · by_cases h2 : isFastaName f.name
      · cases hcl : classify_data_files rest with
        | error e =>
          cases e
          simp only [classify_data_files, h1, if_false, h2, if_true, hcl]
          simp only [hcl] at ih
          simp only [List.mem_cons]
          constructor
          · intro _
            obtain ⟨g, hg, hbad⟩ := ih.mp trivial
            exact ⟨g, Or.inr hg, hbad⟩
          · intro _; rfl
        | ok p =>
          simp only [classify_data_files, h1, if_false, h2, if_true, hcl]
          simp only [hcl] at ih
          simp only [List.mem_cons]
          constructor
          · intro h; exact absurd h (by simp)
          · rintro ⟨g, hg | hg, hbad⟩
            · rcases hbad with hbad | hbad
              · exact absurd (hg ▸ hbad) h1
              · exact absurd (hg ▸ hbad.1) (by simp [h2])
            · exact absurd (ih.mpr ⟨g, hg, hbad⟩) (by simp [hcl])
      · by_cases h3 : isFastqName f.name
        · cases hcl : classify_data_files rest with
          | error e =>
            cases e
            simp only [classify_data_files, h1, if_false, h2, if_false, h3,
              if_true, hcl]
            simp only [hcl] at ih
            simp only [List.mem_cons]
            constructor
            · intro _
              obtain ⟨g, hg, hbad⟩ := ih.mp trivial
              exact ⟨g, Or.inr hg, hbad⟩
            · intro _; rfl
          | ok p =>
            simp only [classify_data_files, h1, if_false, h2, if_false, h3,
              if_true, hcl]
            simp only [hcl] at ih
            simp only [List.mem_cons]
            constructor
            · intro h; exact absurd h (by simp)
            · rintro ⟨g, hg | hg, hbad⟩
              · rcases hbad with hbad | hbad
                · exact absurd (hg ▸ hbad) h1
                · exact absurd (hg ▸ hbad.2) (by simp [h3])
              · exact absurd (ih.mpr ⟨g, hg, hbad⟩) (by simp [hcl])
        · simp only [classify_data_files, h1, if_false, h2, if_false, h3,
            if_false, List.mem_cons]
          constructor
          · intro _
            refine ⟨f, Or.inl rfl, Or.inr ⟨?_, ?_⟩⟩
            · simpa using h2
            · simpa using h3
          · intro _; rfl

/-- C2: `main` of the dataset-preparation script returns exit code 1, with
the filesystem untouched (no directory created), exactly when the parent of
`output_path` is missing, or `num_splits > 1` with `test_split == 0.0`, or
neither output flag is given, or a listed data file is missing, or a listed
data file's name ends in none of `.fasta`, `.fasta.gz`, `.fastq`,
`.fastq.gz`. -/
theorem prep_main_exit1_iff (c : PrepConfig) :
    ((mainRun c).1 = some 1 ↔
      c.output_parent_exists = false
      ∨ (1 < c.num_splits ∧ c.test_split = 0)
      ∨ (c.output_db = false ∧ c.output_fasta_fastq = false)
      ∨ ∃ f ∈ c.data_files, f.exists_on_disk = false
          ∨ (pyEndsWith f.name ".fasta" = false
             ∧ pyEndsWith f.name ".fasta.gz" = false
             ∧ pyEndsWith f.name ".fastq" = false
             ∧ pyEndsWith f.name ".fastq.gz" = false))
    ∧ ((mainRun c).1 = some 1 → (mainRun c).2 = []) := by
  have hext : ∀ f : DataFile,
      (isFastaName f.name = false ∧ isFastqName f.name = false) ↔
      (pyEndsWith f.name ".fasta" = false
       ∧ pyEndsWith f.name ".fasta.gz" = false
       ∧ pyEndsWith f.name ".fastq" = false
       ∧ pyEndsWith f.name ".fastq.gz" = false) := by
    intro f
    simp only [isFastaName, isFastqName, Bool.or_eq_false_iff]
    tauto
  by_cases h1 : c.output_parent_exists = false
  · have hm : mainRun c = (some 1, []) := by unfold mainRun; rw [if_pos h1]
    rw [hm]
    exact ⟨⟨fun _ => Or.inl h1, fun _ => rfl⟩, fun _ => rfl⟩
  · by_cases h2 : 1 < c.num_splits ∧ c.test_split = 0
    · have hm : mainRun c = (some 1, []) := by
        unfold mainRun; rw [if_neg h1, if_pos h2]
      rw [hm]
      exact ⟨⟨fun _ => Or.inr (Or.inl h2), fun _ => rfl⟩, fun _ => rfl⟩
    · by_cases h3 : c.output_fasta_fastq = false ∧ c.output_db = false
      · have hm : mainRun c = (some 1, []) := by
          unfold mainRun; rw [if_neg h1, if_neg h2, if_pos h3]
        rw [hm]
        exact ⟨⟨fun _ => Or.inr (Or.inr (Or.inl ⟨h3.2, h3.1⟩)), fun _ => rfl⟩,
          fun _ => rfl⟩
      · cases hcl : classify_data_files c.data_files with
        | error e =>
          cases e
          have hm : mainRun c = (some 1, []) := by
            unfold mainRun; rw [if_neg h1, if_neg h2, if_neg h3, hcl]
          rw [hm]
          refine ⟨⟨fun _ => ?_, fun _ => rfl⟩, fun _ => rfl⟩
          obtain ⟨f, hf, hbad⟩ := (classify_data_files_error_iff _).mp hcl
          refine Or.inr (Or.inr (Or.inr ⟨f, hf, ?_⟩))
          rcases hbad with hbad | hbad
          · exact Or.inl hbad
          · exact Or.inr ((hext f).mp hbad)
        | ok p =>
          have hm : mainRun c = (none, mkdir_effects c) := by
            unfold mainRun; rw [if_neg h1, if_neg h2, if_neg h3, hcl]
          rw [hm]
          constructor
          · constructor
            · intro h; exact absurd h (by simp)
            · rintro (h | h | h | ⟨f, hf, hbad⟩)
              · exact absurd h h1
              · exact absurd h h2
              · exact absurd ⟨h.2, h.1⟩ h3
              · have : classify_data_files c.data_files = .error () := by
                  refine (classify_data_files_error_iff _).mpr ⟨f, hf, ?_⟩
                  rcases hbad with hbad | hbad
                  · exact Or.inl hbad
                  · exact Or.inr ((hext f).mpr hbad)
                exact absurd this (by simp [hcl])
          · intro h; exact absurd h (by simp)

/-- Witness for `prep_main_exit1_iff` at a concrete configuration whose only
listed data file has an unrecognised extension. -/
theorem prep_main_exit1_iff_witness :
    ((mainRun ⟨"out", true, 1, 1/5, false, true, [⟨"reads.txt", true⟩]⟩).1 = some 1 ↔
      (⟨"out", true, 1, 1/5, false, true,
        [⟨"reads.txt", true⟩]⟩ : PrepConfig).output_parent_exists = false
      ∨ (1 < (⟨"out", true, 1, 1/5, false, true,
          [⟨"reads.txt", true⟩]⟩ : PrepConfig).num_splits
         ∧ (⟨"out", true, 1, 1/5, false, true,
            [⟨"reads.txt", true⟩]⟩ : PrepConfig).test_split = 0)
      ∨ ((⟨"out", true, 1, 1/5, false, true,
          [⟨"reads.txt", true⟩]⟩ : PrepConfig).output_db = false
         ∧ (⟨"out", true, 1, 1/5, false, true,
            [⟨"reads.txt", true⟩]⟩ : PrepConfig).output_fasta_fastq = false)
      ∨ ∃ f ∈ (⟨"out", true, 1, 1/5, false, true,
          [⟨"reads.txt", true⟩]⟩ : PrepConfig).data_files,
          f.exists_on_disk = false
          ∨ (pyEndsWith f.name ".fasta" = false
             ∧ pyEndsWith f.name ".fasta.gz" = false
             ∧ pyEndsWith f.name ".fastq" = false
             ∧ pyEndsWith f.name ".fastq.gz" = false))
    ∧ ((mainRun ⟨"out", true, 1, 1/5, false, true,
        [⟨"reads.txt", true⟩]⟩).1 = some 1 →
       (mainRun ⟨"out", true, 1, 1/5, false, true,
        [⟨"reads.txt", true⟩]⟩).2 = []) :=
  prep_main_exit1_iff ⟨"out", true, 1, 1/5, false, true, [⟨"reads.txt", true⟩]⟩

/-- Model of `process_fastq_files` (lines 132–150). -/
def process_fastq_files (test_split : ℚ) (num_splits : ℕ)
    (rng : RngModel σ α) :
    List (FileData α) → σ → List (String × List (List α × List α)) × σ
  | [], s => ([], s)
  | fd :: rest, s =>
    let r := process_one_fastq test_split num_splits rng fd s
    let rs := process_fastq_files test_split num_splits rng rest r.2.2
    ((r.1, r.2.1) :: rs.1, rs.2)

/-- Behaviour of the split loop: it emits one `(test, train)` pair per split;
each pair concatenates to a permutation of the incoming entry list (the
in-place shuffles only reorder it); each test part has `min k n` entries; and
the final entry-list contents are still a permutation of the input. -/
theorem processSplits_spec {σ α : Type} (rng : RngModel σ α)
    (hperm : ∀ (s : σ) (l : List α), (rng.shuffle s l).1 ~ l) (k : ℕ) :
    ∀ (n : ℕ) (entries : List α) (s : σ),
      (processSplits rng k n entries s).1.length = n
      ∧ (∀ p ∈ (processSplits rng k n entries s).1,
          p.1 ++ p.2 ~ entries ∧ p.1.length = min k entries.length)
      ∧ (processSplits rng k n entries s).2.1 ~ entries := by
  intro n
  induction n with
  | zero => intro entries s; simp [processSplits]
  | succ n ih =>
    intro entries s
    have hsh : (rng.shuffle s entries).1 ~ entries := hperm s entries
    obtain ⟨ihlen, ihmem, ihfin⟩ :=
      ih (rng.shuffle s entries).1 (rng.shuffle s entries).2
    refine ⟨?_, ?_, ?_⟩
    · simp [processSplits, ihlen]
    · intro p hp
      simp only [processSplits, List.mem_cons] at hp
      rcases hp with rfl | hp
      · constructor
        · rw [List.take_append_drop]
          exact hsh
        · simp [hsh.length_eq]
      · obtain ⟨hp1, hp2⟩ := ihmem p hp
        exact ⟨hp1.trans hsh, by rw [hp2, hsh.length_eq]⟩
    · simpa [processSplits] using ihfin.trans hsh

/-- With a test fraction `0 ≤ t ≤ 1`, the computed
`split_index = int(len(entries) * t)` is at most the number of entries and
equals `⌊n * t⌋`. -/
theorem split_index_spec (n : ℕ) (t : ℚ) (ht0 : 0 ≤ t) (ht1 : t ≤ 1) :
    (pyInt ((n : ℚ) * t)).toNat ≤ n
    ∧ ((pyInt ((n : ℚ) * t)).toNat : ℤ) = ⌊(n : ℚ) * t⌋ := by
  have hq : 0 ≤ (n : ℚ) * t := mul_nonneg (by positivity) ht0
  rw [pyInt_nonneg_eq_floor _ hq]
  have hfl : 0 ≤ ⌊(n : ℚ) * t⌋ := Int.floor_nonneg.mpr hq
  have hle : ⌊(n : ℚ) * t⌋ ≤ (n : ℤ) := by
    have hmul : (n : ℚ) * t ≤ (n : ℚ) := by nlinarith
    calc ⌊(n : ℚ) * t⌋ ≤ ⌊(n : ℚ)⌋ := Int.floor_le_floor hmul
      _ = (n : ℤ) := Int.floor_natCast n
  exact ⟨Int.toNat_le.mpr hle, Int.toNat_of_nonneg hfl⟩

/-- C1: for every input file with `n` entries and test fraction
`0 ≤ t ≤ 1`, both `process_fasta_files` and `process_fastq_files` produce
exactly `num_splits` splits; within every split the test and train outputs
together are a permutation of the file's (optionally cleaned) entry list,
and the test output has exactly `⌊n * t⌋` entries. -/
theorem prep_split_permutation {σ α : Type}
    (rng : RngModel σ α)
    (hperm : ∀ (s : σ) (l : List α), (rng.shuffle s l).1 ~ l)
    (test_split : ℚ) (ht0 : 0 ≤ test_split) (ht1 : test_split ≤ 1)
    (clean_sequences : Bool) (num_splits : ℕ) (clean : α → α)
    (files : List (FileData α)) (s : σ) :
    List.Forall₂ (fun (fd : FileData α) out =>
        out.2.length = num_splits
        ∧ ∀ p ∈ out.2,
            p.1 ++ p.2 ~
              (if clean_sequences then fd.entries.map clean else fd.entries)
            ∧ (p.1.length : ℤ) = ⌊(fd.entries.length : ℚ) * test_split⌋)
      files
      (process_fasta_files clean_sequences test_split num_splits rng clean
        files s).1
    ∧ List.Forall₂ (fun (fd : FileData α) out =>
        out.2.length = num_splits
        ∧ ∀ p ∈ out.2,
            p.1 ++ p.2 ~ fd.entries
            ∧ (p.1.length : ℤ) = ⌊(fd.entries.length : ℚ) * test_split⌋)
      files
      (process_fastq_files test_split num_splits rng files s).1 := by
  have hone : ∀ (entries : List α) (s : σ),
      (processSplits rng
        (pyInt ((entries.length : ℚ) * test_split)).toNat num_splits
        entries s).1.length = num_splits
      ∧ ∀ p ∈ (processSplits rng
          (pyInt ((entries.length : ℚ) * test_split)).toNat num_splits
          entries s).1,
          p.1 ++ p.2 ~ entries
          ∧ (p.1.length : ℤ) = ⌊(entries.length : ℚ) * test_split⌋ := by
    intro entries s
    obtain ⟨hk, hkz⟩ := split_index_spec entries.length test_split ht0 ht1
    obtain ⟨hlen, hmem, _⟩ :=
      processSplits_spec rng hperm
        (pyInt ((entries.length : ℚ) * test_split)).toNat num_splits entries s
    refine ⟨hlen, fun p hp => ?_⟩
    obtain ⟨hp1, hp2⟩ := hmem p hp
    refine ⟨hp1, ?_⟩
    rw [hp2, min_eq_left hk]
    exact hkz
  constructor
  · induction files generalizing s with
    | nil => exact List.Forall₂.nil
    | cons fd rest ih =>
      refine List.Forall₂.cons ?_ (ih _)
      obtain ⟨h1, h2⟩ := hone
        (if clean_sequences then fd.entries.map clean else fd.entries) s
      refine ⟨h1, fun p hp => ?_⟩
      obtain ⟨hp1, hp2⟩ := h2 p hp
      refine ⟨hp1, ?_⟩
      rw [hp2]
      by_cases hc : clean_sequences <;> simp [hc]
  · induction files generalizing s with
    | nil => exact List.Forall₂.nil
    | cons fd rest ih =>
      exact List.Forall₂.cons (hone fd.entries s) (ih _)

/-- A concrete RNG model used to instantiate the split theorems: shuffling
reverses the list and advances a counter state. -/
def revRng : RngModel ℕ ℕ := ⟨fun s l => (l.reverse, s + 1)⟩

/-- Witness for `prep_split_permutation`: one three-entry FASTA file, test
fraction 1/2, two splits, reversal RNG. -/
theorem prep_split_permutation_witness :
    List.Forall₂ (fun (fd : FileData ℕ) out =>
        out.2.length = 2
        ∧ ∀ p ∈ out.2,
            p.1 ++ p.2 ~ (if false then fd.entries.map id else fd.entries)
            ∧ (p.1.length : ℤ) = ⌊(fd.entries.length : ℚ) * (1 / 2)⌋)
      [⟨"a.fasta", [1, 2, 3]⟩]
      (process_fasta_files false (1 / 2) 2 revRng id [⟨"a.fasta", [1, 2, 3]⟩] 0).1
    ∧ List.Forall₂ (fun (fd : FileData ℕ) out =>
        out.2.length = 2
        ∧ ∀ p ∈ out.2,
            p.1 ++ p.2 ~ fd.entries
            ∧ (p.1.length : ℤ) = ⌊(fd.entries.length : ℚ) * (1 / 2)⌋)
      [⟨"a.fasta", [1, 2, 3]⟩]
      (process_fastq_files (1 / 2) 2 revRng [⟨"a.fasta", [1, 2, 3]⟩] 0).1 :=
  prep_split_permutation revRng (fun _ l => l.reverse_perm) (1 / 2)
    (by norm_num) (by norm_num) false 2 id [⟨"a.fasta", [1, 2, 3]⟩] 0

/-- The split loop is a function of the entry list and the RNG behaviour
alone: generators with identical shuffle behaviour give identical results. -/
theorem processSplits_congr {σ α : Type} (rng₁ rng₂ : RngModel σ α)
    (hagree : ∀ (s : σ) (l : List α), rng₁.shuffle s l = rng₂.shuffle s l)
    (k : ℕ) :
    ∀ (n : ℕ) (entries : List α) (s : σ),
      processSplits rng₁ k n entries s = processSplits rng₂ k n entries s := by
  intro n
  induction n with
  | zero => intro entries s; rfl
  | succ n ih =>
    intro entries s
    simp only [processSplits, hagree s entries, ih]

/-- C10: two runs of `process_fasta_files` (or `process_fastq_files`) on the
same inputs with identically-behaved, identically-seeded RNGs produce
identical outputs — the injected RNG is the only source of nondeterminism in
the splits. -/
theorem prep_split_determinism {σ α : Type} (rng₁ rng₂ : RngModel σ α)
    (hagree : ∀ (s : σ) (l : List α), rng₁.shuffle s l = rng₂.shuffle s l)
    (clean_sequences : Bool) (test_split : ℚ) (num_splits : ℕ)
    (clean : α → α) (files : List (FileData α)) (s : σ) :
    process_fasta_files clean_sequences test_split num_splits rng₁ clean
        files s
      = process_fasta_files clean_sequences test_split num_splits rng₂ clean
        files s
    ∧ process_fastq_files test_split num_splits rng₁ files s
      = process_fastq_files test_split num_splits rng₂ files s := by
  constructor
  · induction files generalizing s with
    | nil => rfl
    | cons fd rest ih =>
      simp only [process_fasta_files, process_one_fasta,
        processSplits_congr rng₁ rng₂ hagree _ _ _ _, ih]
  · induction files generalizing s with
    | nil => rfl
    | cons fd rest ih =>
      simp only [process_fastq_files, process_one_fastq,
        processSplits_congr rng₁ rng₂ hagree _ _ _ _, ih]

/-- A second RNG model with a syntactically different but extensionally equal
state update, used to instantiate `prep_split_determinism`. -/
def revRng2 : RngModel ℕ ℕ := ⟨fun s l => (l.reverse, 1 + s)⟩

/-- Witness for `prep_split_determinism` at concrete inputs. -/
theorem prep_split_determinism_witness :
    process_fasta_files true (1 / 5) 3 revRng (· + 1) [⟨"b.fasta.gz", [4, 5]⟩] 0
      = process_fasta_files true (1 / 5) 3 revRng2 (· + 1) [⟨"b.fasta.gz", [4, 5]⟩] 0
    ∧ process_fastq_files (1 / 5) 3 revRng [⟨"b.fasta.gz", [4, 5]⟩] 0
      = process_fastq_files (1 / 5) 3 revRng2 [⟨"b.fasta.gz", [4, 5]⟩] 0 :=
  prep_split_determinism revRng revRng2
    (fun s l => by simp [revRng, revRng2, Nat.add_comm])
    true (1 / 5) 3 (· + 1) [⟨"b.fasta.gz", [4, 5]⟩] 0

/-- Two decompositions of the same list ending in single elements force
those last elements to agree. -/
theorem getLast_append_ne (name : String) (p q : List Char) (c d : Char)
    (t u : List Char) (hp : name.data = p ++ (t ++ [c]))
    (hq : name.data = q ++ (u ++ [d])) : c = d := by
  have h1 : name.data.getLast? = some c := by
    rw [hp, List.getLast?_append, List.getLast?_append]
    simp
  have h2 : name.data.getLast? = some d := by
    rw [hq, List.getLast?_append, List.getLast?_append]
    simp
  rw [h1] at h2
  exact Option.some.inj h2

/-- On any file name accepted by `main`'s validation, Python's
`name.rstrip('.gz')` — stripping of the trailing character set `{.,g,z}` —
coincides with removing one trailing `.gz` suffix when present: each
accepted extension ends in a character outside the stripped set, which
stops the strip exactly at the suffix boundary. -/
theorem rstrip_gz_eq_remove_suffix (name : String)
    (h : isFastaName name = true ∨ isFastqName name = true) :
    pyRstrip name ['.', 'g', 'z'] =
      if pyEndsWith name ".gz" then ⟨name.data.take (name.data.length - 3)⟩
      else name := by
  have hgzd : (".gz".data) = ['.', 'g', 'z'] := by decide
  have h4 : pyEndsWith name ".fasta" = true ∨ pyEndsWith name ".fasta.gz" = true
      ∨ pyEndsWith name ".fastq" = true ∨ pyEndsWith name ".fastq.gz" = true := by
    rcases h with h | h <;> simp only [isFastaName, isFastqName,
      Bool.or_eq_true] at h <;> tauto
  rcases h4 with h | h | h | h
  · obtain ⟨p, hp⟩ : ∃ t, t ++ ".fasta".data = name.data :=
      List.isSuffixOf_iff_suffix.mp h
    rw [show (".fasta".data) = ['.', 'f', 'a', 's', 't', 'a'] from by decide] at hp
    have hgz : pyEndsWith name ".gz" = false := by
      by_contra hgz
      rw [Bool.not_eq_false] at hgz
      obtain ⟨q, hq⟩ : ∃ t, t ++ ".gz".data = name.data :=
        List.isSuffixOf_iff_suffix.mp hgz
      rw [hgzd] at hq
      have : 'a' = 'z' := getLast_append_ne name p q 'a' 'z'
        ['.', 'f', 'a', 's', 't'] ['.', 'g'] (by rw [← hp]; rfl) (by rw [← hq]; rfl)
      exact absurd this (by decide)
    rw [hgz]
    simp only [Bool.false_eq_true, if_false]
    apply String.ext
    show (name.data.reverse.dropWhile (fun c => c ∈ ['.', 'g', 'z'])).reverse = name.data
    rw [← hp, List.reverse_append]
    simp [List.dropWhile_cons]
  · obtain ⟨p, hp⟩ : ∃ t, t ++ ".fasta.gz".data = name.data :=
      List.isSuffixOf_iff_suffix.mp h
    rw [show (".fasta.gz".data) = ['.', 'f', 'a', 's', 't', 'a', '.', 'g', 'z']
      from by decide] at hp
    have hgz : pyEndsWith name ".gz" = true := by
      have hsuf : (".gz".data) <:+ name.data := by
        rw [hgzd]
        exact ⟨p ++ ['.', 'f', 'a', 's', 't', 'a'], by rw [← hp]; simp⟩
      simpa [pyEndsWith] using List.isSuffixOf_iff_suffix.mpr hsuf
    rw [hgz, if_pos rfl]
    apply String.ext
    show (name.data.reverse.dropWhile (fun c => c ∈ ['.', 'g', 'z'])).reverse
      = name.data.take (name.data.length - 3)
    rw [← hp, List.reverse_append]
    have hlen : (p ++ ['.', 'f', 'a', 's', 't', 'a', '.', 'g', 'z']).length - 3
        = p.length + 6 := by simp
    rw [hlen]
    have htake : (p ++ ['.', 'f', 'a', 's', 't', 'a', '.', 'g', 'z']).take (p.length + 6)
        = p ++ ['.', 'f', 'a', 's', 't', 'a'] := by
      rw [List.take_append]
      rfl
    rw [htake]
    simp [List.dropWhile_cons]
  · obtain ⟨p, hp⟩ : ∃ t, t ++ ".fastq".data = name.data :=
      List.isSuffixOf_iff_suffix.mp h
    rw [show (".fastq".data) = ['.', 'f', 'a', 's', 't', 'q'] from by decide] at hp
    have hgz : pyEndsWith name ".gz" = false := by
      by_contra hgz
      rw [Bool.not_eq_false] at hgz
      obtain ⟨q, hq⟩ : ∃ t, t ++ ".gz".data = name.data :=
        List.isSuffixOf_iff_suffix.mp hgz
      rw [hgzd] at hq
      have : 'q' = 'z' := getLast_append_ne name p q 'q' 'z'
        ['.', 'f', 'a', 's', 't'] ['.', 'g'] (by rw [← hp]; rfl) (by rw [← hq]; rfl)
      exact absurd this (by decide)
    rw [hgz]
    simp only [Bool.false_eq_true, if_false]
    apply String.ext
    show (name.data.reverse.dropWhile (fun c => c ∈ ['.', 'g', 'z'])).reverse = name.data
    rw [← hp, List.reverse_append]
    simp [List.dropWhile_cons]
  · obtain ⟨p, hp⟩ : ∃ t, t ++ ".fastq.gz".data = name.data :=
      List.isSuffixOf_iff_suffix.mp h
    rw [show (".fastq.gz".data) = ['.', 'f', 'a', 's', 't', 'q', '.', 'g', 'z']
      from by decide] at hp
    have hgz : pyEndsWith name ".gz" = true := by
      have hsuf : (".gz".data) <:+ name.data := by
        rw [hgzd]
        exact ⟨p ++ ['.', 'f', 'a', 's', 't', 'q'], by rw [← hp]; simp⟩
      simpa [pyEndsWith] using List.isSuffixOf_iff_suffix.mpr hsuf
    rw [hgz, if_pos rfl]
    apply String.ext
    show (name.data.reverse.dropWhile (fun c => c ∈ ['.', 'g', 'z'])).reverse
      = name.data.take (name.data.length - 3)
    rw [← hp, List.reverse_append]
    have hlen : (p ++ ['.', 'f', 'a', 's', 't', 'q', '.', 'g', 'z']).length - 3
        = p.length + 6 := by simp
    rw [hlen]
    have htake : (p ++ ['.', 'f', 'a', 's', 't', 'q', '.', 'g', 'z']).take (p.length + 6)
        = p ++ ['.', 'f', 'a', 's', 't', 'q'] := by
      rw [List.take_append]
      rfl
    rw [htake]
    simp [List.dropWhile_cons]

/-- C5: for every data file accepted by `main`'s validation, the file name
under which `process_fasta_files` and `process_fastq_files` write their
outputs is the input file's name with one trailing `.gz` suffix removed if
present and unchanged otherwise, despite being computed with
`rstrip('.gz')`. -/
theorem prep_output_filename {σ α : Type} (fd : FileData α)
    (h : isFastaName fd.name = true ∨ isFastqName fd.name = true)
    (clean_sequences : Bool) (test_split : ℚ) (num_splits : ℕ)
    (rng : RngModel σ α) (clean : α → α) (s : σ) :
    (process_one_fasta clean_sequences test_split num_splits rng clean fd s).1
      = (if pyEndsWith fd.name ".gz"
         then ⟨fd.name.data.take (fd.name.data.length - 3)⟩ else fd.name)
    ∧ (process_one_fastq test_split num_splits rng fd s).1
      = (if pyEndsWith fd.name ".gz"
         then ⟨fd.name.data.take (fd.name.data.length - 3)⟩ else fd.name) := by
  have hr := rstrip_gz_eq_remove_suffix fd.name h
  exact ⟨hr, hr⟩

/-- Witness for `prep_output_filename` on the file name `x.fasta.gz`. -/
theorem prep_output_filename_witness :
    (process_one_fasta false (1 / 2) 1 revRng id
        (⟨"x.fasta.gz", [7]⟩ : FileData ℕ) 0).1
      = (if pyEndsWith "x.fasta.gz" ".gz"
         then ⟨"x.fasta.gz".data.take ("x.fasta.gz".data.length - 3)⟩
         else "x.fasta.gz")
    ∧ (process_one_fastq (1 / 2) 1 revRng (⟨"x.fasta.gz", [7]⟩ : FileData ℕ) 0).1
      = (if pyEndsWith "x.fasta.gz" ".gz"
         then ⟨"x.fasta.gz".data.take ("x.fasta.gz".data.length - 3)⟩
         else "x.fasta.gz") :=
  prep_output_filename ⟨"x.fasta.gz", [7]⟩ (Or.inl (by decide))
    false (1 / 2) 1 revRng id 0

/-! ## Embedding of src/common/models/gast.py

The Keras/settransformer layer graph is embedded symbolically: a
`TExpr` records each layer application together with the constructor
arguments the source passes to it, so structural claims about the built
models (which layers exist, with which flags and sizes, wired to which
inputs) become statements about the expression tree. -/

/-- Tensor dtypes appearing in the model builders. -/
inductive DType where
  | float32 : DType
  | int32 : DType
deriving DecidableEq, Repr

/-- Symbolic layer-application graph.  Constructor argument order follows
the keyword order at the corresponding call site in `gast.py`. -/
inductive TExpr where
  | input (name : String) (shape : List (Option ℕ)) (dtype : DType) : TExpr
  | dense (units : ℕ) (activation : Option String) (x : TExpr) : TExpr
  | embeddingL (input_dim output_dim : ℕ) (x : TExpr) : TExpr
  | flatten (x : TExpr) : TExpr
  | concat (xs : List TExpr) : TExpr
  | add (a b : TExpr) : TExpr
  | sampleSet (max_set_size embed_dim : ℕ) (x : TExpr) : TExpr
  | csab (embed_dim num_heads num_anchors : ℕ) (ff_dim : Option ℕ)
      (ff_activation : String)
      (use_keras_mha use_spectral_norm prelayernorm is_final : Bool)
      (x cond : TExpr) : TExpr
  | isab (embed_dim num_heads num_induce : ℕ) (ff_dim : Option ℕ)
      (ff_activation : String)
      (use_keras_mha use_spectral_norm prelayernorm is_final : Bool)
      (x : TExpr) : TExpr
  | ise (num_seeds embed_dim num_heads : ℕ) (ff_dim : Option ℕ)
      (ff_activation : String)
      (prelayernorm is_final use_keras_mha use_spectral_norm : Bool)
      (x : TExpr) : TExpr
  | spectralDense (units : ℕ) (use_spectral_norm : Bool) (x : TExpr) : TExpr

mutual

/-- All subexpressions of a graph, the expression itself included: the
layer applications the built model consists of. -/
def TExpr.subexprs : TExpr → List TExpr
  | .input n sh d => [.input n sh d]
  | .dense u a x => .dense u a x :: x.subexprs
  | .embeddingL i o x => .embeddingL i o x :: x.subexprs
  | .flatten x => .flatten x :: x.subexprs
  | .concat xs => .concat xs :: subexprsList xs
  | .add a b => .add a b :: (a.subexprs ++ b.subexprs)
  | .sampleSet m e x => .sampleSet m e x :: x.subexprs
  | .csab e h a f fa km sn pl fin x c =>
      .csab e h a f fa km sn pl fin x c :: (x.subexprs ++ c.subexprs)
  | .isab e h a f fa km sn pl fin x =>
      .isab e h a f fa km sn pl fin x :: x.subexprs
  | .ise s e h f fa pl fin km sn x =>
      .ise s e h f fa pl fin km sn x :: x.subexprs
  | .spectralDense u sn x => .spectralDense u sn x :: x.subexprs

/-- Subexpressions of every member of a list of graphs. -/
def subexprsList : List TExpr → List TExpr
  | [] => []
  | x :: xs => x.subexprs ++ subexprsList xs

end

/-- For the attention layers of the claim — `ConditionedSetAttentionBlock`,
`InducedSetAttentionBlock`, `InducedSetEncoder` and `spectral_dense` — the
`use_spectral_norm` flag the layer was constructed with; `none` for all
other layers. -/
def TExpr.attn_spectral : TExpr → Option Bool
  | .csab _ _ _ _ _ _ sn _ _ _ _ => some sn
  | .isab _ _ _ _ _ _ sn _ _ _ => some sn
  | .ise _ _ _ _ _ _ _ _ sn _ => some sn
  | .spectralDense _ sn _ => some sn
  | _ => none

/-- For `ConditionedSetAttentionBlock` the `num_anchors` argument and for
`InducedSetAttentionBlock` the `num_induce` argument; `none` otherwise. -/
def TExpr.anchor_count : TExpr → Option ℕ
  | .csab _ _ a _ _ _ _ _ _ _ _ => some a
  | .isab _ _ i _ _ _ _ _ _ _ => some i
  | _ => none

/-- A functional Keras model: its input layers and its output tensor. -/
structure BuiltModel where
  inputs : List TExpr
  output : TExpr

/-- The seventeen parameters of `GastGenerator.__init__`, with `None`-able
ones as `Option`. -/
structure GastGeneratorArgs where
  max_set_size : ℕ
  noise_dim : ℕ
  embed_dim : ℕ
  latent_dim : ℕ
  stack : ℕ
  num_heads : ℕ
  num_anchors : ℕ
  use_keras_mha : Bool
  use_spectral_norm : Bool
  activation : String
  cond_dim : Option ℕ
  ff_dim : Option ℕ
  mlp_dim : Option ℕ
  pre_layernorm : Bool
  include_class : Bool
  num_classes : Option ℕ
  class_dim : Option ℕ

/-- Python default of the `use_spectral_norm` parameter of
`GastGenerator.__init__` (line 23 of gast.py). -/
def GastGenerator.default_use_spectral_norm : Bool := true

/-- The attributes `GastGenerator.__init__` assigns on `self` before calling
`build_model` (lines 35–51), after applying the `x if x is not None else d`
defaulting.  `num_samples` models the *presence* of a `num_samples`
attribute on the object: `__init__` never assigns one, so it is `none` for
every constructed instance. -/
structure GastGeneratorAttrs where
  max_set_size : ℕ
  noise_dim : ℕ
  embed_dim : ℕ
  latent_dim : ℕ
  stack : ℕ
  num_heads : ℕ
  num_anchors : ℕ
  use_keras_mha : Bool
  use_spectral_norm : Bool
  activation : String
  cond_dim : ℕ
  ff_dim : Option ℕ
  mlp_dim : Option ℕ
  pre_layernorm : Bool
  include_class : Bool
  num_classes : Option ℕ
  class_dim : ℕ
  num_samples : Option ℕ

/-- The `ConditionedSetAttentionBlock` call of `GastGenerator.build_model`
(lines 72–81), with the keyword arguments the source passes. -/
def genCsab (a : GastGeneratorAttrs) (i : ℕ) (y condition : TExpr) : TExpr :=
  TExpr.csab a.latent_dim a.num_heads a.num_anchors a.ff_dim
    a.activation a.use_keras_mha a.use_spectral_norm a.pre_layernorm
    (decide (i = a.stack - 1)) y condition

/-- The `for i in range(self.stack)` loop of `GastGenerator.build_model`
(lines 71–82): starting from the conditioned sample set, each iteration
adds a `ConditionedSetAttentionBlock` residual. -/
def genStack (a : GastGeneratorAttrs) (condition y0 : TExpr) : TExpr :=
  (List.range a.stack).foldl (fun y i => TExpr.add y (genCsab a i y condition)) y0

/-- Model of `GastGenerator.build_model` (lines 54–87).  The class branch reads
`self.num_samples`, which `__init__` never assigns, so that branch raises
`AttributeError` (modelled as `Except.error`). -/
def GastGeneratorAttrs.build_model (a : GastGeneratorAttrs) :
    Except String BuiltModel :=
  let noise := TExpr.input "noise" [some a.noise_dim] .float32
  let cardinality := TExpr.input "cardinality" [some 1] .int32
  if a.include_class then
    match a.num_samples with
    | none => .error "AttributeError: num_samples"
    | some num_samples =>
      let label := TExpr.input "label" [some 1] .int32
      let condition := TExpr.flatten (TExpr.embeddingL num_samples a.class_dim label)
      let condition := TExpr.concat [noise, condition]
      let condition := TExpr.dense a.cond_dim (some a.activation) condition
      let y := genStack a condition (TExpr.sampleSet a.max_set_size a.embed_dim cardinality)
      let y := TExpr.spectralDense a.latent_dim a.use_spectral_norm y
      .ok { inputs := [noise, label, cardinality], output := y }
  else
    let condition := TExpr.dense a.cond_dim (some a.activation) noise
    let y := genStack a condition (TExpr.sampleSet a.max_set_size a.embed_dim cardinality)
    let y := TExpr.spectralDense a.latent_dim a.use_spectral_norm y
    .ok { inputs := [noise, cardinality], output := y }

/-- A constructed `GastGenerator`: its `self` attributes and the model
built during `__init__`. -/
structure GastGenerator where
  attrs : GastGeneratorAttrs
  model : BuiltModel

/-- The attribute assignments of `GastGenerator.__init__` (lines 35–51):
`self.x = x` for each parameter, with the
`x if x is not None else d` defaulting for `cond_dim`, `mlp_dim` and
`class_dim`; no `num_samples` attribute is ever assigned. -/
def gastGenAttrsOf (args : GastGeneratorArgs) : GastGeneratorAttrs := {
  max_set_size := args.max_set_size
  noise_dim := args.noise_dim
  embed_dim := args.embed_dim
  latent_dim := args.latent_dim
  stack := args.stack
  num_heads := args.num_heads
  num_anchors := args.num_anchors
  use_keras_mha := args.use_keras_mha
  use_spectral_norm := args.use_spectral_norm
  activation := args.activation
  cond_dim := args.cond_dim.getD args.embed_dim
  ff_dim := args.ff_dim
  mlp_dim := if args.mlp_dim.isSome then args.mlp_dim else args.ff_dim
  pre_layernorm := args.pre_layernorm
  include_class := args.include_class
  num_classes := args.num_classes
  class_dim := args.class_dim.getD args.noise_dim
  num_samples := none }

/-- Model of `GastGenerator.__init__` (lines 13–52): attribute assignment with
defaulting, then `self.model = self.build_model()`. -/
def GastGenerator.init (args : GastGeneratorArgs) :
    Except String GastGenerator :=
  match (gastGenAttrsOf args).build_model with
  | .error e => .error e
  | .ok m => .ok ⟨gastGenAttrsOf args, m⟩

/-- The configuration dictionary produced by `GastGenerator.get_config`
(lines 92–113): the seventeen recorded keys.  `CustomModel.get_config`
returns `{}`, so these are the only keys.  `cond_dim`, `class_dim` are
stored already defaulted (plain values); `ff_dim`, `mlp_dim`, `num_classes`
may be `None`. -/
structure GastGeneratorConfig where
  max_set_size : ℕ
  noise_dim : ℕ
  embed_dim : ℕ
  latent_dim : ℕ
  stack : ℕ
  num_heads : ℕ
  num_anchors : ℕ
  use_keras_mha : Bool
  use_spectral_norm : Bool
  activation : String
  cond_dim : ℕ
  ff_dim : Option ℕ
  mlp_dim : Option ℕ
  pre_layernorm : Bool
  include_class : Bool
  num_classes : Option ℕ
  class_dim : ℕ

/-- Model of `GastGenerator.get_config` (lines 92–113). -/
def GastGenerator.get_config (g : GastGenerator) : GastGeneratorConfig := {
  max_set_size := g.attrs.max_set_size
  noise_dim := g.attrs.noise_dim
  embed_dim := g.attrs.embed_dim
  latent_dim := g.attrs.latent_dim
  stack := g.attrs.stack
  num_heads := g.attrs.num_heads
  num_anchors := g.attrs.num_anchors
  use_keras_mha := g.attrs.use_keras_mha
  use_spectral_norm := g.attrs.use_spectral_norm
  activation := g.attrs.activation
  cond_dim := g.attrs.cond_dim
  ff_dim := g.attrs.ff_dim
  mlp_dim := g.attrs.mlp_dim
  pre_layernorm := g.attrs.pre_layernorm
  include_class := g.attrs.include_class
  num_classes := g.attrs.num_classes
  class_dim := g.attrs.class_dim }

/-- The keyword arguments `cls(**config)` passes to `__init__`: each
recorded key matches one `__init__` parameter; the stored `cond_dim` and
`class_dim` are plain values. -/
def gastConfigArgs (c : GastGeneratorConfig) : GastGeneratorArgs := {
  max_set_size := c.max_set_size
  noise_dim := c.noise_dim
  embed_dim := c.embed_dim
  latent_dim := c.latent_dim
  stack := c.stack
  num_heads := c.num_heads
  num_anchors := c.num_anchors
  use_keras_mha := c.use_keras_mha
  use_spectral_norm := c.use_spectral_norm
  activation := c.activation
  cond_dim := some c.cond_dim
  ff_dim := c.ff_dim
  mlp_dim := c.mlp_dim
  pre_layernorm := c.pre_layernorm
  include_class := c.include_class
  num_classes := c.num_classes
  class_dim := some c.class_dim }

/-- Model of `CustomModel.from_config` (custom_model.py lines 154–156):
`cls(**config)`, i.e. `__init__` called with the recorded values as keyword
arguments. -/
def GastGenerator.from_config (c : GastGeneratorConfig) :
    Except String GastGenerator :=
  GastGenerator.init (gastConfigArgs c)

/-- The eleven parameters of `GastDiscriminator.__init__`. -/
structure GastDiscriminatorArgs where
  latent_dim : ℕ
  embed_dim : ℕ
  stack : ℕ
  num_heads : ℕ
  num_anchors : ℕ
  use_keras_mha : Bool
  use_spectral_norm : Bool
  activation : String
  ff_dim : Option ℕ
  pre_layernorm : Bool
  num_classes : ℕ

/-- Python default of the `use_spectral_norm` parameter of
`GastDiscriminator.__init__` (line 126 of gast.py). -/
def GastDiscriminator.default_use_spectral_norm : Bool := true

/-- The attributes `GastDiscriminator.__init__` assigns on `self`
(lines 134–144); no defaulting occurs. -/
structure GastDiscriminatorAttrs where
  latent_dim : ℕ
  embed_dim : ℕ
  stack : ℕ
  num_heads : ℕ
  num_anchors : ℕ
  use_keras_mha : Bool
  use_spectral_norm : Bool
  activation : String
  ff_dim : Option ℕ
  pre_layernorm : Bool
  num_classes : ℕ

/-- The `InducedSetEncoder` call repeated in `GastDiscriminator.build_model`
(lines 154–164 and 179–188), applied to the running set `y`. -/
def discEncoder (a : GastDiscriminatorAttrs) (y : TExpr) : TExpr :=
  TExpr.ise 1 a.embed_dim a.num_heads a.ff_dim a.activation
    a.pre_layernorm true a.use_keras_mha a.use_spectral_norm y

/-- The `InducedSetAttentionBlock` call of `GastDiscriminator.build_model`
(lines 168–177), with the keyword arguments the source passes. -/
def discIsab (a : GastDiscriminatorAttrs) (i : ℕ) (y : TExpr) : TExpr :=
  TExpr.isab a.embed_dim a.num_heads a.num_anchors a.ff_dim
    a.activation a.use_keras_mha a.use_spectral_norm a.pre_layernorm
    (decide (i = a.stack - 1)) y

/-- One iteration of the `for i in range(self.stack)` loop of
`GastDiscriminator.build_model` (lines 167–188): an
`InducedSetAttentionBlock` residual on the running set, then an
`InducedSetEncoder` of the result appended to `enc`. -/
def discStep (a : GastDiscriminatorAttrs) (p : TExpr × List TExpr) (i : ℕ) :
    TExpr × List TExpr :=
  let y := TExpr.add p.1 (discIsab a i p.1)
  (y, p.2 ++ [discEncoder a y])

/-- Model of `GastDiscriminator.build_model` (lines 148–194). -/
def GastDiscriminatorAttrs.build_model (a : GastDiscriminatorAttrs) :
    BuiltModel :=
  let x := TExpr.input "input" [none, some a.latent_dim] .float32
  let y := TExpr.dense a.embed_dim none x
  let r := (List.range a.stack).foldl (discStep a) (y, [discEncoder a y])
  let out := TExpr.dense (a.num_classes + 1) (some "softmax") (TExpr.concat r.2)
  { inputs := [x], output := out }

/-- A constructed `GastDiscriminator`. -/
structure GastDiscriminator where
  attrs : GastDiscriminatorAttrs
  model : BuiltModel

/-- Model of `GastDiscriminator.__init__` (lines 118–146): attribute assignment,
then `self.model = self.build_model()`; no failure path exists. -/
def GastDiscriminator.init (args : GastDiscriminatorArgs) : GastDiscriminator :=
  let a : GastDiscriminatorAttrs := {
    latent_dim := args.latent_dim
    embed_dim := args.embed_dim
    stack := args.stack
    num_heads := args.num_heads
    num_anchors := args.num_anchors
    use_keras_mha := args.use_keras_mha
    use_spectral_norm := args.use_spectral_norm
    activation := args.activation
    ff_dim := args.ff_dim
    pre_layernorm := args.pre_layernorm
    num_classes := args.num_classes }
  ⟨a, a.build_model⟩

/-! ### Structural lemmas about the layer graphs -/

theorem TExpr.self_mem_subexprs (e : TExpr) : e ∈ e.subexprs := by
  cases e <;> simp [TExpr.subexprs]

theorem TExpr.mem_subexprs_add (f a b : TExpr) :
    f ∈ (TExpr.add a b).subexprs ↔
      f = .add a b ∨ f ∈ a.subexprs ∨ f ∈ b.subexprs := by
  simp [TExpr.subexprs]

theorem TExpr.mem_subexprs_spectralDense (f x : TExpr) (u : ℕ) (sn : Bool) :
    f ∈ (TExpr.spectralDense u sn x).subexprs ↔
      f = .spectralDense u sn x ∨ f ∈ x.subexprs := by
  simp [TExpr.subexprs]

theorem TExpr.mem_subexprs_dense (f x : TExpr) (u : ℕ) (act : Option String) :
    f ∈ (TExpr.dense u act x).subexprs ↔
      f = .dense u act x ∨ f ∈ x.subexprs := by
  simp [TExpr.subexprs]

theorem TExpr.mem_subexprs_sampleSet (f x : TExpr) (m e : ℕ) :
    f ∈ (TExpr.sampleSet m e x).subexprs ↔
      f = .sampleSet m e x ∨ f ∈ x.subexprs := by
  simp [TExpr.subexprs]

theorem TExpr.mem_subexprs_concat (f : TExpr) (xs : List TExpr) :
    f ∈ (TExpr.concat xs).subexprs ↔
      f = .concat xs ∨ f ∈ subexprsList xs := by
  simp [TExpr.subexprs]

theorem TExpr.mem_subexprs_input (f : TExpr) (n : String)
    (sh : List (Option ℕ)) (d : DType) :
    f ∈ (TExpr.input n sh d).subexprs ↔ f = .input n sh d := by
  simp [TExpr.subexprs]

theorem mem_subexprs_genCsab (a : GastGeneratorAttrs) (i : ℕ)
    (f y c : TExpr) :
    f ∈ (genCsab a i y c).subexprs ↔
      f = genCsab a i y c ∨ f ∈ y.subexprs ∨ f ∈ c.subexprs := by
  simp [genCsab, TExpr.subexprs]

theorem mem_subexprs_discEncoder (a : GastDiscriminatorAttrs) (f y : TExpr) :
    f ∈ (discEncoder a y).subexprs ↔
      f = discEncoder a y ∨ f ∈ y.subexprs := by
  simp [discEncoder, TExpr.subexprs]

theorem mem_subexprs_isab (f x : TExpr) (e h a : ℕ) (fd : Option ℕ)
    (fa : String) (km sn pl fin : Bool) :
    f ∈ (TExpr.isab e h a fd fa km sn pl fin x).subexprs ↔
      f = .isab e h a fd fa km sn pl fin x ∨ f ∈ x.subexprs := by
  simp [TExpr.subexprs]

theorem subexprsList_append (l₁ l₂ : List TExpr) :
    subexprsList (l₁ ++ l₂) = subexprsList l₁ ++ subexprsList l₂ := by
  induction l₁ with
  | nil => simp [subexprsList]
  | cons x xs ih => simp [subexprsList, ih]

/-- Every subexpression of the generator stack is a subexpression of the
base sample set, a subexpression of the conditioning tensor, or one of the
residual/attention nodes added by the loop. -/
theorem mem_genStack_subexprs (a : GastGeneratorAttrs) (cond y0 f : TExpr)
    (hf : f ∈ (genStack a cond y0).subexprs) :
    f ∈ y0.subexprs ∨ f ∈ cond.subexprs
    ∨ (∃ i y, f = TExpr.add y (genCsab a i y cond))
    ∨ (∃ i y, f = genCsab a i y cond) := by
  unfold genStack at hf
  generalize List.range a.stack = l at hf
  induction l generalizing y0 with
  | nil => exact Or.inl hf
  | cons i l ih =>
    simp only [List.foldl_cons] at hf
    rcases ih _ hf with h | h | h | h
    · rcases (TExpr.mem_subexprs_add f _ _).mp h with rfl | h | h
      · exact Or.inr (Or.inr (Or.inl ⟨i, y0, rfl⟩))
      · exact Or.inl h
      · rcases (mem_subexprs_genCsab a i f _ _).mp h with rfl | h | h
        · exact Or.inr (Or.inr (Or.inr ⟨i, y0, rfl⟩))
        · exact Or.inl h
        · exact Or.inr (Or.inl h)
    · exact Or.inr (Or.inl h)
    · exact Or.inr (Or.inr (Or.inl h))
    · exact Or.inr (Or.inr (Or.inr h))

/-- The base of the generator stack survives as a subexpression of the
stack's result. -/
theorem subexprs_subset_genStack (a : GastGeneratorAttrs) (cond y0 : TExpr) :
    y0.subexprs ⊆ (genStack a cond y0).subexprs := by
  unfold genStack
  generalize List.range a.stack = l
  induction l generalizing y0 with
  | nil => exact fun f hf => hf
  | cons i l ih =>
    intro f hf
    simp only [List.foldl_cons]
    exact ih _ ((TExpr.mem_subexprs_add f _ _).mpr (Or.inr (Or.inl hf)))

theorem mem_subexprs_discIsab (a : GastDiscriminatorAttrs) (i : ℕ)
    (f y : TExpr) :
    f ∈ (discIsab a i y).subexprs ↔
      f = discIsab a i y ∨ f ∈ y.subexprs := by
  simp [discIsab, TExpr.subexprs]

/-- The possible shapes of a subexpression of the discriminator's layer
graph: part of the embedded input, or one of the residual-sum, attention
block, or set-encoder nodes created by the loop. -/
def DiscShape (a : GastDiscriminatorAttrs) (y0 : TExpr) (f : TExpr) : Prop :=
  f ∈ y0.subexprs
  ∨ (∃ i y, f = TExpr.add y (discIsab a i y))
  ∨ (∃ i y, f = discIsab a i y)
  ∨ (∃ y, f = discEncoder a y)

/-- Invariant of the discriminator's stack loop: every subexpression of the
running set and of every encoder output has one of the `DiscShape` forms. -/
theorem discFold_shape (a : GastDiscriminatorAttrs) (y0 : TExpr)
    (l : List ℕ) :
    ∀ (p : TExpr × List TExpr),
      (∀ f ∈ p.1.subexprs, DiscShape a y0 f) →
      (∀ f ∈ subexprsList p.2, DiscShape a y0 f) →
      (∀ f ∈ (l.foldl (discStep a) p).1.subexprs, DiscShape a y0 f)
      ∧ (∀ f ∈ subexprsList (l.foldl (discStep a) p).2, DiscShape a y0 f) := by
  induction l with
  | nil => exact fun p h1 h2 => ⟨h1, h2⟩
  | cons i l ih =>
    intro p h1 h2
    simp only [List.foldl_cons]
    have hy : ∀ f ∈ (TExpr.add p.1 (discIsab a i p.1)).subexprs,
        DiscShape a y0 f := by
      intro f hf
      rcases (TExpr.mem_subexprs_add f _ _).mp hf with rfl | hf | hf
      · exact Or.inr (Or.inl ⟨i, p.1, rfl⟩)
      · exact h1 f hf
      · rcases (mem_subexprs_discIsab a i f _).mp hf with rfl | hf
        · exact Or.inr (Or.inr (Or.inl ⟨i, p.1, rfl⟩))
        · exact h1 f hf
    apply ih
    · exact hy
    · intro f hf
      simp only [discStep] at hf
      rw [subexprsList_append] at hf
      rcases List.mem_append.mp hf with hf | hf
      · exact h2 f hf
      · have : f ∈ (discEncoder a (TExpr.add p.1 (discIsab a i p.1))).subexprs := by
          simpa [subexprsList] using hf
        rcases (mem_subexprs_discEncoder a f _).mp this with rfl | hf2
        · exact Or.inr (Or.inr (Or.inr ⟨_, rfl⟩))
        · exact hy f hf2

/-! ### Evaluation of the generator constructor -/

/-- The model `GastGenerator.build_model` returns when `include_class` is
false (lines 56–57, 62, 67, 70–83, 87). -/
def genModelNC (a : GastGeneratorAttrs) : BuiltModel :=
  let noise := TExpr.input "noise" [some a.noise_dim] .float32
  let cardinality := TExpr.input "cardinality" [some 1] .int32
  { inputs := [noise, cardinality]
    output := TExpr.spectralDense a.latent_dim a.use_spectral_norm
      (genStack a (TExpr.dense a.cond_dim (some a.activation) noise)
        (TExpr.sampleSet a.max_set_size a.embed_dim cardinality)) }

theorem build_model_of_include_class_false (a : GastGeneratorAttrs)
    (hic : a.include_class = false) :
    a.build_model = .ok (genModelNC a) := by
  unfold GastGeneratorAttrs.build_model genModelNC
  rw [hic]
  simp

theorem build_model_of_include_class_true (a : GastGeneratorAttrs)
    (hic : a.include_class = true) (hns : a.num_samples = none) :
    a.build_model = .error "AttributeError: num_samples" := by
  unfold GastGeneratorAttrs.build_model
  rw [hic, hns]
  simp

/-- A successful `GastGenerator.__init__` forces the classless branch and
determines the instance completely. -/
theorem gast_init_ok_elim (args : GastGeneratorArgs) (g : GastGenerator)
    (h : GastGenerator.init args = .ok g) :
    args.include_class = false
    ∧ g = ⟨gastGenAttrsOf args, genModelNC (gastGenAttrsOf args)⟩ := by
  by_cases hic : args.include_class = true
  · exfalso
    have hb : (gastGenAttrsOf args).build_model
        = .error "AttributeError: num_samples" :=
      build_model_of_include_class_true _ hic rfl
    unfold GastGenerator.init at h
    rw [hb] at h
    exact absurd h (by simp)
  · have hic2 : args.include_class = false := by
      cases hv : args.include_class
      · rfl
      · exact absurd hv hic
    have hb : (gastGenAttrsOf args).build_model
        = .ok (genModelNC (gastGenAttrsOf args)) :=
      build_model_of_include_class_false _ hic2
    unfold GastGenerator.init at h
    rw [hb] at h
    simp only [Except.ok.injEq] at h
    exact ⟨hic2, h.symm⟩

/-- C4: every `GastGenerator(..., include_class=True, ...)` construction
fails: `build_model` reads `self.num_samples`, which `__init__` never
assigns, so the class branch raises `AttributeError`; consequently every
successfully constructed `GastGenerator` has `include_class=False` (and no
`num_samples` attribute). -/
theorem gast_include_class_unconstructible :
    (∀ args : GastGeneratorArgs, args.include_class = true →
      GastGenerator.init args = .error "AttributeError: num_samples")
    ∧ (∀ (args : GastGeneratorArgs) (g : GastGenerator),
        GastGenerator.init args = .ok g →
        g.attrs.include_class = false ∧ g.attrs.num_samples = none) := by
  constructor
  · intro args hic
    unfold GastGenerator.init
    rw [build_model_of_include_class_true _ hic rfl]
  · intro args g h
    obtain ⟨hic, rfl⟩ := gast_init_ok_elim args g h
    exact ⟨hic, rfl⟩

/-- Arguments with `include_class=True` used to witness the failure. -/
def wBadArgs : GastGeneratorArgs :=
  ⟨4, 3, 5, 6, 1, 2, 2, false, true, "relu", none, none, none, true, true,
   some 3, none⟩

/-- Witness for `gast_include_class_unconstructible`. -/
theorem gast_include_class_unconstructible_witness :
    wBadArgs.include_class = true
    ∧ GastGenerator.init wBadArgs = .error "AttributeError: num_samples" :=
  ⟨rfl, gast_include_class_unconstructible.1 wBadArgs rfl⟩

/-- C7: a constructed generator's model has exactly the two inputs `noise`
(length `noise_dim`) and `cardinality` (shape `(1,)`, int32), and its output
is the `latent_dim`-dimensional projection of the
`ConditionedSetAttentionBlock` stack applied to a
`SampleSet(max_set_size, embed_dim)` of the cardinality input, with every
attention block in the stack of width `latent_dim` and conditioned on the
`cond_dim` dense projection of the noise input. -/
theorem gast_generator_interface (args : GastGeneratorArgs)
    (g : GastGenerator) (h : GastGenerator.init args = .ok g) :
    g.model.inputs = [TExpr.input "noise" [some g.attrs.noise_dim] .float32,
                      TExpr.input "cardinality" [some 1] .int32]
    ∧ g.model.output = TExpr.spectralDense g.attrs.latent_dim
        g.attrs.use_spectral_norm
        (genStack g.attrs
          (TExpr.dense g.attrs.cond_dim (some g.attrs.activation)
            (TExpr.input "noise" [some g.attrs.noise_dim] .float32))
          (TExpr.sampleSet g.attrs.max_set_size g.attrs.embed_dim
            (TExpr.input "cardinality" [some 1] .int32)))
    ∧ TExpr.sampleSet g.attrs.max_set_size g.attrs.embed_dim
        (TExpr.input "cardinality" [some 1] .int32) ∈ g.model.output.subexprs
    ∧ ∀ e ∈ g.model.output.subexprs,
        ∀ (ed nh na : ℕ) (fd : Option ℕ) (fa : String)
          (km sn pl fin : Bool) (x c : TExpr),
          e = TExpr.csab ed nh na fd fa km sn pl fin x c →
          ed = g.attrs.latent_dim
          ∧ c = TExpr.dense g.attrs.cond_dim (some g.attrs.activation)
              (TExpr.input "noise" [some g.attrs.noise_dim] .float32) := by
  obtain ⟨hic, rfl⟩ := gast_init_ok_elim args g h
  refine ⟨rfl, rfl, ?_, ?_⟩
  · apply (TExpr.mem_subexprs_spectralDense _ _ _ _).mpr
    exact Or.inr (subexprs_subset_genStack _ _ _ (TExpr.self_mem_subexprs _))
  · intro e he ed nh na fd fa km sn pl fin x c heq
    rcases (TExpr.mem_subexprs_spectralDense e _ _ _).mp he with rfl | he
    · exact absurd heq (by simp)
    rcases mem_genStack_subexprs _ _ _ e he with hy | hc | ⟨i, y, rfl⟩ | ⟨i, y, rfl⟩
    · rcases (TExpr.mem_subexprs_sampleSet e _ _ _).mp hy with rfl | hy
      · exact absurd heq (by simp)
      · rw [TExpr.mem_subexprs_input e _ _ _] at hy
        subst hy
        exact absurd heq (by simp)
    · rcases (TExpr.mem_subexprs_dense e _ _ _).mp hc with rfl | hc
      · exact absurd heq (by simp)
      · rw [TExpr.mem_subexprs_input e _ _ _] at hc
        subst hc
        exact absurd heq (by simp)
    · exact absurd heq (by simp)
    · simp only [genCsab, TExpr.csab.injEq] at heq
      obtain ⟨hed, -, -, -, -, -, -, -, -, -, hcond⟩ := heq
      exact ⟨hed.symm, hcond.symm⟩

/-- Arguments for a small, successfully constructed generator. -/
def wGenArgs : GastGeneratorArgs :=
  ⟨4, 3, 5, 6, 1, 2, 2, false, true, "relu", none, none, none, true, false,
   none, none⟩

/-- The generator constructed from `wGenArgs`. -/
def wGen : GastGenerator :=
  match GastGenerator.init wGenArgs with
  | .ok g => g
  | .error _ => ⟨gastGenAttrsOf wGenArgs, ⟨[], TExpr.input "x" [] .float32⟩⟩

/-- Witness for `gast_generator_interface` at `wGenArgs`. -/
theorem gast_generator_interface_witness :
    GastGenerator.init wGenArgs = Except.ok wGen
    ∧ wGen.model.inputs
        = [TExpr.input "noise" [some wGen.attrs.noise_dim] .float32,
           TExpr.input "cardinality" [some 1] .int32] :=
  ⟨rfl, (gast_generator_interface wGenArgs wGen rfl).1⟩

/-- Every subexpression of the discriminator's layer graph is a plain dense
layer, a concatenation, an input, or one of the loop's residual-sum,
attention-block, or set-encoder nodes. -/
theorem disc_model_subexprs (a : GastDiscriminatorAttrs) (f : TExpr)
    (hf : f ∈ a.build_model.output.subexprs) :
    (∃ u act x, f = TExpr.dense u act x)
    ∨ (∃ xs, f = TExpr.concat xs)
    ∨ (∃ n sh d, f = TExpr.input n sh d)
    ∨ (∃ i y, f = TExpr.add y (discIsab a i y))
    ∨ (∃ i y, f = discIsab a i y)
    ∨ (∃ y, f = discEncoder a y) := by
  simp only [GastDiscriminatorAttrs.build_model] at hf
  rcases (TExpr.mem_subexprs_dense f _ _ _).mp hf with rfl | hf
  · exact Or.inl ⟨_, _, _, rfl⟩
  rcases (TExpr.mem_subexprs_concat f _).mp hf with rfl | hf
  · exact Or.inr (Or.inl ⟨_, rfl⟩)
  have hshape := (discFold_shape a
    (TExpr.dense a.embed_dim none
      (TExpr.input "input" [none, some a.latent_dim] .float32))
    (List.range a.stack)
    (TExpr.dense a.embed_dim none
      (TExpr.input "input" [none, some a.latent_dim] .float32),
     [discEncoder a (TExpr.dense a.embed_dim none
       (TExpr.input "input" [none, some a.latent_dim] .float32))])
    (fun g hg => Or.inl hg)
    (fun g hg => by
      simp only [subexprsList, List.append_nil] at hg
      rcases (mem_subexprs_discEncoder a g _).mp hg with rfl | hg
      · exact Or.inr (Or.inr (Or.inr ⟨_, rfl⟩))
      · exact Or.inl hg)).2 f hf
  rcases hshape with hy | ⟨i, y, rfl⟩ | ⟨i, y, rfl⟩ | ⟨y, rfl⟩
  · rcases (TExpr.mem_subexprs_dense f _ _ _).mp hy with rfl | hy
    · exact Or.inl ⟨_, _, _, rfl⟩
    · rw [TExpr.mem_subexprs_input f _ _ _] at hy
      subst hy
      exact Or.inr (Or.inr (Or.inl ⟨_, _, _, rfl⟩))
  · exact Or.inr (Or.inr (Or.inr (Or.inl ⟨i, y, rfl⟩)))
  · exact Or.inr (Or.inr (Or.inr (Or.inr (Or.inl ⟨i, y, rfl⟩))))
  · exact Or.inr (Or.inr (Or.inr (Or.inr (Or.inr ⟨y, rfl⟩))))

/-- C3: both constructors default `use_spectral_norm` to `True`, and under
that flag every attention layer of the built models — every
`ConditionedSetAttentionBlock`, `InducedSetAttentionBlock`,
`InducedSetEncoder`, and the generator's final `spectral_dense` — is
constructed with `use_spectral_norm=True`. -/
theorem gast_spectral_norm_by_default :
    GastGenerator.default_use_spectral_norm = true
    ∧ GastDiscriminator.default_use_spectral_norm = true
    ∧ (∀ (args : GastGeneratorArgs) (g : GastGenerator),
        GastGenerator.init args = .ok g → g.attrs.use_spectral_norm = true →
        ∀ e ∈ g.model.output.subexprs,
          ∀ b, e.attn_spectral = some b → b = true)
    ∧ (∀ args : GastDiscriminatorArgs, args.use_spectral_norm = true →
        ∀ e ∈ (GastDiscriminator.init args).model.output.subexprs,
          ∀ b, e.attn_spectral = some b → b = true) := by
  refine ⟨rfl, rfl, ?_, ?_⟩
  · intro args g h hsn e he b hb
    obtain ⟨hic, rfl⟩ := gast_init_ok_elim args g h
    rcases (TExpr.mem_subexprs_spectralDense e _ _ _).mp he with rfl | he
    · simp only [TExpr.attn_spectral, Option.some.injEq] at hb
      rw [← hb]; exact hsn
    rcases mem_genStack_subexprs _ _ _ e he with hy | hc | ⟨i, y, rfl⟩ | ⟨i, y, rfl⟩
    · rcases (TExpr.mem_subexprs_sampleSet e _ _ _).mp hy with rfl | hy
      · exact absurd hb (by simp [TExpr.attn_spectral])
      · rw [TExpr.mem_subexprs_input e _ _ _] at hy
        subst hy
        exact absurd hb (by simp [TExpr.attn_spectral])
    · rcases (TExpr.mem_subexprs_dense e _ _ _).mp hc with rfl | hc
      · exact absurd hb (by simp [TExpr.attn_spectral])
      · rw [TExpr.mem_subexprs_input e _ _ _] at hc
        subst hc
        exact absurd hb (by simp [TExpr.attn_spectral])
    · exact absurd hb (by simp [TExpr.attn_spectral])
    · simp only [genCsab, TExpr.attn_spectral, Option.some.injEq] at hb
      rw [← hb]; exact hsn
  · intro args hsn e he b hb
    rcases disc_model_subexprs _ e he with ⟨u, act, x, rfl⟩ | ⟨xs, rfl⟩
      | ⟨n, sh, d, rfl⟩ | ⟨i, y, rfl⟩ | ⟨i, y, rfl⟩ | ⟨y, rfl⟩
    · exact absurd hb (by simp [TExpr.attn_spectral])
    · exact absurd hb (by simp [TExpr.attn_spectral])
    · exact absurd hb (by simp [TExpr.attn_spectral])
    · exact absurd hb (by simp [TExpr.attn_spectral])
    · simp only [discIsab, TExpr.attn_spectral, Option.some.injEq] at hb
      rw [← hb]; exact hsn
    · simp only [discEncoder, TExpr.attn_spectral, Option.some.injEq] at hb
      rw [← hb]; exact hsn

/-- Arguments for a small discriminator. -/
def wDiscArgs : GastDiscriminatorArgs :=
  ⟨6, 5, 1, 2, 2, false, true, "relu", none, true, 1⟩

/-- Witness for `gast_spectral_norm_by_default`: the generator's output
projection is an attention layer of the built model and carries the flag. -/
theorem gast_spectral_norm_by_default_witness :
    GastGenerator.init wGenArgs = Except.ok wGen
    ∧ wGen.attrs.use_spectral_norm = true
    ∧ true = true :=
  ⟨rfl, rfl,
    gast_spectral_norm_by_default.2.2.1 wGenArgs wGen rfl rfl
      wGen.model.output (TExpr.self_mem_subexprs _) true rfl⟩

/-- C6: every `ConditionedSetAttentionBlock` of a generator is constructed
with `num_anchors` equal to the constructor argument, and every
`InducedSetAttentionBlock` of a discriminator with `num_induce` equal to
the constructor argument `num_anchors`: a fixed constant of the model,
independent of any input set. -/
theorem gast_anchor_counts :
    (∀ (args : GastGeneratorArgs) (g : GastGenerator),
        GastGenerator.init args = .ok g →
        ∀ e ∈ g.model.output.subexprs,
          ∀ k, e.anchor_count = some k → k = args.num_anchors)
    ∧ (∀ args : GastDiscriminatorArgs,
        ∀ e ∈ (GastDiscriminator.init args).model.output.subexprs,
          ∀ k, e.anchor_count = some k → k = args.num_anchors) := by
  constructor
  · intro args g h e he k hk
    obtain ⟨hic, rfl⟩ := gast_init_ok_elim args g h
    rcases (TExpr.mem_subexprs_spectralDense e _ _ _).mp he with rfl | he
    · exact absurd hk (by simp [TExpr.anchor_count])
    rcases mem_genStack_subexprs _ _ _ e he with hy | hc | ⟨i, y, rfl⟩ | ⟨i, y, rfl⟩
    · rcases (TExpr.mem_subexprs_sampleSet e _ _ _).mp hy with rfl | hy
      · exact absurd hk (by simp [TExpr.anchor_count])
      · rw [TExpr.mem_subexprs_input e _ _ _] at hy
        subst hy
        exact absurd hk (by simp [TExpr.anchor_count])
    · rcases (TExpr.mem_subexprs_dense e _ _ _).mp hc with rfl | hc
      · exact absurd hk (by simp [TExpr.anchor_count])
      · rw [TExpr.mem_subexprs_input e _ _ _] at hc
        subst hc
        exact absurd hk (by simp [TExpr.anchor_count])
    · exact absurd hk (by simp [TExpr.anchor_count])
    · simp only [genCsab, TExpr.anchor_count, Option.some.injEq] at hk
      exact hk.symm
  · intro args e he k hk
    rcases disc_model_subexprs _ e he with ⟨u, act, x, rfl⟩ | ⟨xs, rfl⟩
      | ⟨n, sh, d, rfl⟩ | ⟨i, y, rfl⟩ | ⟨i, y, rfl⟩ | ⟨y, rfl⟩
    · exact absurd hk (by simp [TExpr.anchor_count])
    · exact absurd hk (by simp [TExpr.anchor_count])
    · exact absurd hk (by simp [TExpr.anchor_count])
    · exact absurd hk (by simp [TExpr.anchor_count])
    · simp only [discIsab, TExpr.anchor_count, Option.some.injEq] at hk
      exact hk.symm
    · exact absurd hk (by simp [TExpr.anchor_count, discEncoder])

/-- The single `ConditionedSetAttentionBlock` node of `wGen`'s model. -/
def wCsab : TExpr :=
  genCsab (gastGenAttrsOf wGenArgs) 0
    (TExpr.sampleSet 4 5 (TExpr.input "cardinality" [some 1] .int32))
    (TExpr.dense 5 (some "relu") (TExpr.input "noise" [some 3] .float32))

/-- Witness for `gast_anchor_counts` at `wGen`'s attention block. -/
theorem gast_anchor_counts_witness :
    GastGenerator.init wGenArgs = Except.ok wGen
    ∧ wCsab.anchor_count = some 2
    ∧ (2 : ℕ) = wGenArgs.num_anchors :=
  ⟨rfl, rfl,
    gast_anchor_counts.1 wGenArgs wGen rfl wCsab
      (List.Mem.tail _ (List.Mem.tail _ (List.Mem.tail _ (List.Mem.tail _
        (List.Mem.head _))))) 2 rfl⟩

/-- C8: for every successfully constructed generator `g`, the round trip
`GastGenerator.from_config(g.get_config())` succeeds and reproduces all
seventeen recorded configuration values: `get_config` stores the
already-defaulted `cond_dim`, `mlp_dim` and `class_dim`, and the `__init__`
defaulting is the identity on those stored values. -/
theorem gast_config_roundtrip (args : GastGeneratorArgs) (g : GastGenerator)
    (h : GastGenerator.init args = .ok g) :
    ∃ g2, GastGenerator.from_config (GastGenerator.get_config g) = .ok g2
      ∧ GastGenerator.get_config g2 = GastGenerator.get_config g := by
  obtain ⟨hic, rfl⟩ := gast_init_ok_elim args g h
  have hkey : gastGenAttrsOf (gastConfigArgs (GastGenerator.get_config
      ⟨gastGenAttrsOf args, genModelNC (gastGenAttrsOf args)⟩))
      = gastGenAttrsOf args := by
    cases hm : args.mlp_dim <;> cases hf : args.ff_dim <;>
      simp [gastGenAttrsOf, gastConfigArgs, GastGenerator.get_config, hm, hf]
  refine ⟨⟨gastGenAttrsOf args, genModelNC (gastGenAttrsOf args)⟩, ?_, rfl⟩
  unfold GastGenerator.from_config GastGenerator.init
  rw [hkey, build_model_of_include_class_false _ hic]

/-- Witness for `gast_config_roundtrip`: the round trip succeeds on the
concrete generator `wGen`. -/
theorem gast_config_roundtrip_witness :
    (GastGenerator.from_config (GastGenerator.get_config wGen)).isOk = true := by
  obtain ⟨g2, h2, -⟩ := gast_config_roundtrip wGenArgs wGen rfl
  rw [h2]
  rfl

/-! ## Embedding of data_generators of
setbert_finetune_sfd_binary_classification.py (lines 73–100)

The retained samples are modelled as a list pairing each sample's name with
its target `targets[s.name]`.  Sample names are the keys of the `targets`
dict rebuilt at line 84 (`load_multiplexed_fasta` yields each sample name
once), so counts over the dict equal counts over this list. -/

/-- Model of `num_positive = sum(targets.values())` (line 85). -/
def num_positive (samples : List (String × Bool)) : ℕ :=
  (samples.filter (fun s => s.2)).length

/-- Model of `num_negative = len(targets) - num_positive` (line 86). -/
def num_negative (samples : List (String × Bool)) : ℕ :=
  samples.length - num_positive samples

/-- One element `0.5 / num_positive if targets[s.name] else 0.5 / num_negative`
of the comprehension at line 87, in exact rational arithmetic.  Python
evaluates only the selected branch; `none` models the `ZeroDivisionError`
raised when the selected denominator is zero. -/
def sample_weight (P N : ℕ) (target : Bool) : Option ℚ :=
  if target then
    (if P = 0 then none else some (1 / 2 / (P : ℚ)))
  else
    (if N = 0 then none else some (1 / 2 / (N : ℚ)))

/-- The list comprehension at line 87, evaluated left to right with the
per-element conditional; the first `ZeroDivisionError` aborts it. -/
def weights_list (P N : ℕ) : List (String × Bool) → Option (List ℚ)
  | [] => some []
  | s :: rest =>
    match sample_weight P N s.2, weights_list P N rest with
    | some w, some ws => some (w :: ws)
    | _, _ => none

/-- The `class_weights` array (line 87). -/
def class_weights (samples : List (String × Bool)) : Option (List ℚ) :=
  weights_list (num_positive samples) (num_negative samples) samples

theorem weights_list_eq_map (P N : ℕ) (g : String × Bool → ℚ)
    (l : List (String × Bool))
    (h : ∀ x ∈ l, sample_weight P N x.2 = some (g x)) :
    weights_list P N l = some (l.map g) := by
  induction l with
  | nil => rfl
  | cons x xs ih =>
    have hx := h x (List.mem_cons_self x xs)
    have hxs := ih (fun y hy => h y (List.mem_cons_of_mem x hy))
    simp [weights_list, hx, hxs]

theorem sum_map_const_rat {α : Type} (l : List α) (c : ℚ) :
    (l.map fun _ => c).sum = (l.length : ℚ) * c := by
  induction l with
  | nil => simp
  | cons x xs ih =>
    simp [ih]
    ring

theorem pos_add_negfilter (samples : List (String × Bool)) :
    num_positive samples + (samples.filter fun s => !s.2).length
      = samples.length := by
  unfold num_positive
  induction samples with
  | nil => rfl
  | cons s l ih =>
    cases h : s.2 <;> simp [List.filter_cons, h] <;> omega

theorem weights_sum_split (samples : List (String × Bool)) (wp wn : ℚ) :
    (samples.map (fun s => if s.2 then wp else wn)).sum
      = ((samples.filter fun s => s.2).length : ℚ) * wp
        + ((samples.filter fun s => !s.2).length : ℚ) * wn := by
  induction samples with
  | nil => simp
  | cons s l ih =>
    cases h : s.2 <;> simp [List.filter_cons, h, ih] <;> ring

/-- C9 (amended): the `class_weights` comprehension never divides by zero —
each sample evaluates only the branch for its own class, whose count is
then at least one — and when both classes are present the weights sum to 1
with the positive samples jointly receiving mass 1/2 and the negative
samples jointly receiving mass 1/2 (exact rational arithmetic). -/
theorem class_weights_spec (samples : List (String × Bool)) :
    ∃ ws, class_weights samples = some ws
      ∧ (0 < num_positive samples → 0 < num_negative samples →
          ws.sum = 1
          ∧ ((samples.filter fun s => s.2).map
              (fun _ => 1 / 2 / (num_positive samples : ℚ))).sum = 1 / 2
          ∧ ((samples.filter fun s => !s.2).map
              (fun _ => 1 / 2 / (num_negative samples : ℚ))).sum = 1 / 2) := by
  have hnfl : (samples.filter fun s => !s.2).length = num_negative samples := by
    have h := pos_add_negfilter samples
    unfold num_negative
    omega
  refine ⟨samples.map (fun s => if s.2
      then 1 / 2 / (num_positive samples : ℚ)
      else 1 / 2 / (num_negative samples : ℚ)), ?_, ?_⟩
  · apply weights_list_eq_map
    intro s hs
    cases h : s.2 with
    | true =>
      have hmem : s ∈ samples.filter (fun s => s.2) :=
        List.mem_filter.mpr ⟨hs, by simp [h]⟩
      have hP : num_positive samples ≠ 0 := by
        unfold num_positive
        have := List.length_pos.mpr (List.ne_nil_of_mem hmem)
        omega
      simp [sample_weight, h, hP]
    | false =>
      have hmem : s ∈ samples.filter (fun s => !s.2) :=
        List.mem_filter.mpr ⟨hs, by simp [h]⟩
      have hN : num_negative samples ≠ 0 := by
        rw [← hnfl]
        have := List.length_pos.mpr (List.ne_nil_of_mem hmem)
        omega
      simp [sample_weight, h, hN]
  · intro hP hN
    have hPQ : ((num_positive samples : ℕ) : ℚ) ≠ 0 :=
      Nat.cast_ne_zero.mpr hP.ne'
    have hNQ : ((num_negative samples : ℕ) : ℚ) ≠ 0 :=
      Nat.cast_ne_zero.mpr hN.ne'
    have hpos : ((samples.filter fun s => s.2).map
        (fun _ => 1 / 2 / (num_positive samples : ℚ))).sum = 1 / 2 := by
      rw [sum_map_const_rat]
      show ((num_positive samples : ℚ)) * _ = 1 / 2
      field_simp
      ring
    have hneg : ((samples.filter fun s => !s.2).map
        (fun _ => 1 / 2 / (num_negative samples : ℚ))).sum = 1 / 2 := by
      rw [sum_map_const_rat, hnfl]
      field_simp
      ring
    refine ⟨?_, hpos, hneg⟩
    rw [weights_sum_split, hnfl]
    show ((num_positive samples : ℚ)) * _ + _ = 1
    field_simp
    ring

/-- Retained samples with one positive and one negative target. -/
def wSamples : List (String × Bool) := [("a", true), ("b", false)]

/-- Witness for `class_weights_spec` at `wSamples`, discharging the inner
class-presence hypotheses. -/
theorem class_weights_spec_witness :
    0 < num_positive wSamples
    ∧ 0 < num_negative wSamples
    ∧ ∃ ws, class_weights wSamples = some ws
      ∧ (0 < num_positive wSamples → 0 < num_negative wSamples →
          ws.sum = 1
          ∧ ((wSamples.filter fun s => s.2).map
              (fun _ => 1 / 2 / (num_positive wSamples : ℚ))).sum = 1 / 2
          ∧ ((wSamples.filter fun s => !s.2).map
              (fun _ => 1 / 2 / (num_negative wSamples : ℚ))).sum = 1 / 2) :=
  ⟨by decide, by decide, class_weights_spec wSamples⟩

/-- C9 counterexample to the claim as stated: with a single retained sample,
positive only, the negative class is absent yet the computation does not
divide by zero — it succeeds and returns `[1/2]`, because the
zero-denominator branch is never evaluated. -/
theorem class_weights_absent_class_no_error :
    num_negative [("a", true)] = 0
    ∧ class_weights [("a", true)] = some [1 / 2] := by
  constructor
  · rfl
  · show class_weights [("a", true)] = some [1 / 2]
    simp only [class_weights, weights_list, sample_weight, num_positive,
      num_negative]
    norm_num

end SFD
